import Mathlib

/-!
Verification development for the captionist backend.

The definitions below are shallow embeddings of the TypeScript sources:

* `src/services/captionGenerator.ts` — `CaptionGenerator.generateCaptionsFromTranscript`,
  `splitTextIntoSegments`, `calculateReadingTime`;
* `src/services/exportService.ts` — `ExportService.writeAssFile`, `hexToAssColor`,
  `generateAssEffect`, `secondsToAssTime`, `escapeAssText`, `update`, `startBurnIn`,
  and the progress handling of `runFfmpeg`;
* the legacy `ExportService` variant — `buildComplexFilter`,
  `createMultipleSimpleFilters`, `escapeText`, `normalizeColor`;
* `src/types/captions.ts` — `normalizeCaptionStyle` and the preset data;
* `src/api/routes/export.ts` — the `POST /burn-in` handler's payload check.

JavaScript numbers are modelled as `ℚ` (the values reached by the claims are exact
decimals, far from floating-point rounding), machine strings as `String`/`List Char`.
-/

namespace Captionist

/-! ## JavaScript primitives -/

/-- Whitespace test matching the characters of the JavaScript `\s` class that can
occur in the transcripts and colour strings handled here. -/
def isWs (c : Char) : Bool :=
  c = ' ' || c = '\t' || c = '\n' || c = '\r'

/-- Model of `String.prototype.trim` on character lists. -/
def jsTrim (l : List Char) : List Char :=
  ((l.dropWhile isWs).reverse.dropWhile isWs).reverse

/-- Single pass collecting the maximal runs of non-whitespace characters;
`acc` holds the current run, reversed. -/
def wordsOfAux : List Char → List Char → List (List Char)
  | [], acc => if acc.isEmpty then [] else [acc.reverse]
  | c :: rest, acc =>
    if isWs c then
      if acc.isEmpty then wordsOfAux rest [] else acc.reverse :: wordsOfAux rest []
    else wordsOfAux rest (c :: acc)

/-- Maximal runs of non-whitespace characters, in order. -/
def wordsOf (l : List Char) : List (List Char) := wordsOfAux l []

/-- Model of `text.trim().split(/\s+/)`: on a trimmed string, JavaScript `split`
on a whitespace regex yields `[""]` for the empty string and the list of
whitespace-delimited words otherwise. -/
def jsTrimSplitWs (l : List Char) : List (List Char) :=
  let t := jsTrim l
  if t.isEmpty then [[]] else wordsOf t

/-- Model of `Math.round`: round half toward positive infinity. -/
def jsRound (q : ℚ) : ℤ := ⌊q + 1 / 2⌋

/-- Model of `a || b` for a JavaScript number `a` (`0` is falsy; `ℚ` has no NaN). -/
def jsOrNum (a b : ℚ) : ℚ := if a = 0 then b else a

/-- Model of `a || b` for a JavaScript string `a` (`""` is falsy). -/
def jsOrStr (a b : String) : String := if a = "" then b else a

/-- Model of `a || b` where `a` is an optional JavaScript number
(`undefined` and `0` are falsy). -/
def jsOptOrNum (a : Option ℚ) (b : ℚ) : ℚ :=
  match a with
  | none => b
  | some q => if q = 0 then b else q

/-- Model of `String.prototype.startsWith`. -/
def strStartsWith (s p : String) : Bool := p.data.isPrefixOf s.data

/-! ## CaptionGenerator (src/services/captionGenerator.ts) -/

/-- The `CaptionSegment` interface of `src/types/captions.ts`. -/
structure CaptionSegment where
  id : String
  text : String
  startTime : ℚ
  endTime : ℚ
  confidence : ℚ
deriving DecidableEq, Repr

/-- The `options` record of `CaptionGenerationRequest`. -/
structure GenOptions where
  maxSegmentDuration : ℚ
  minSegmentDuration : ℚ
  wordPerMinute : ℚ
deriving DecidableEq, Repr

/-- Fixed-size chunking of `words` used by `splitTextIntoSegments`:
`for (let i = 0; i < words.length; i += wordsPerSegment) words.slice(i, i + wordsPerSegment)`.
With `wordsPerSegment = 0` the JavaScript loop never terminates; that case is
outside every theorem's domain and modelled as producing no chunks. -/
def chunkListAux {α : Type} (wps : ℕ) : ℕ → List α → List (List α)
  | 0, _ => []
  | _, [] => []
  | fuel + 1, x :: rest => (x :: rest).take wps :: chunkListAux wps fuel ((x :: rest).drop wps)

/-- See `chunkList`: with `wps ≥ 1` each step consumes at least one element, so
`l.length` steps of fuel execute the JavaScript loop in full. -/
def chunkList {α : Type} (wps : ℕ) (l : List α) : List (List α) :=
  if wps = 0 then [] else chunkListAux wps l.length l

/-- Model of `Array.prototype.join(' ')`. -/
def joinSpace : List (List Char) → List Char
  | [] => []
  | [w] => w
  | w :: ws => w ++ ' ' :: joinSpace ws

/-- Model of `CaptionGenerator.splitTextIntoSegments` (captionGenerator.ts lines 294-313). -/
def splitTextIntoSegments (text : List Char) (totalDuration maxSegmentDuration : ℚ) :
    List (List Char) :=
  let words := jsTrimSplitWs text
  let totalWords : ℚ := words.length
  let targetSegments : ℤ := ⌈totalDuration / maxSegmentDuration⌉
  let wordsPerSegment : ℤ := ⌈totalWords / (targetSegments : ℚ)⌉
  let chunks := chunkList wordsPerSegment.toNat words
  (chunks.map (fun ws => jsTrim (joinSpace ws))).filter (fun s => !s.isEmpty)

/-- Model of `CaptionGenerator.calculateReadingTime` (captionGenerator.ts lines 315-319). -/
def calculateReadingTime (text : List Char) (wordPerMinute : ℚ) : ℚ :=
  let wordCount : ℚ := (jsTrimSplitWs text).length
  max (wordCount / wordPerMinute * 60) 1

/-- The `segments.forEach` timing loop of `generateCaptionsFromTranscript`
(captionGenerator.ts lines 267-289), with the running `currentTime` and the
`forEach` index made explicit.  `now` stands for the `Date.now()` value used in
the generated ids. -/
def layoutSegments (wordPerMinute maxSegmentDuration duration : ℚ) (now : ℕ) :
    List (List Char) → ℕ → ℚ → List CaptionSegment
  | [], _, _ => []
  | seg :: rest, index, currentTime =>
    let segmentDuration := min (calculateReadingTime seg wordPerMinute) maxSegmentDuration
    let endTime := min (currentTime + segmentDuration) duration
    if currentTime < endTime then
      { id := s!"caption-{now}-{index}", text := String.mk seg,
        startTime := currentTime, endTime := endTime, confidence := 9 / 10 } ::
        layoutSegments wordPerMinute maxSegmentDuration duration now rest (index + 1) endTime
    else
      layoutSegments wordPerMinute maxSegmentDuration duration now rest (index + 1) endTime

/-- Model of `CaptionGenerator.generateCaptionsFromTranscript` (captionGenerator.ts lines 249-292). -/
def generateCaptionsFromTranscript (transcript : String) (duration : ℚ)
    (options : GenOptions) (now : ℕ) : List CaptionSegment :=
  let segments := splitTextIntoSegments transcript.data duration options.maxSegmentDuration
  layoutSegments options.wordPerMinute options.maxSegmentDuration duration now segments 0 0

/-! ## ExportService job records (src/services/exportService.ts) -/

/-- The `ExportStatus` union type. -/
inductive ExportStatus where
  | pending
  | processing
  | completed
  | failed
deriving DecidableEq, Repr

/-- The flat `CaptionStyle` interface of `src/types/captions.ts` used by
`ExportService.writeAssFile`; the string-literal union types are modelled as
strings, optional fields as `Option`. -/
structure CaptionStyle where
  type : String
  position : String
  fontSize : ℚ
  fontFamily : String
  color : String
  backgroundColor : String
  padding : ℚ
  borderRadius : ℚ
  animationDuration : Option ℚ
  animationDelay : Option ℚ
  animationEasing : Option String
  shadowColor : Option String
  shadowBlur : Option ℚ
  shadowOffsetX : Option ℚ
  shadowOffsetY : Option ℚ
  borderColor : Option String
  borderWidth : Option ℚ
  opacity : Option ℚ
  rotation : Option ℚ
deriving DecidableEq, Repr

/-- The `ExportJob` interface (exportService.ts lines 27-34). -/
structure ExportJob where
  jobId : String
  status : ExportStatus
  progress : ℚ
  outputPath : Option String
  publicUrl : Option String
  error : Option String
deriving DecidableEq, Repr

/-- A `Partial<ExportJob>` patch as passed to `ExportService.update`; only the
fields that the source ever patches are modelled. -/
structure ExportJobPatch where
  status : Option ExportStatus
  progress : Option ℚ
deriving DecidableEq, Repr

/-- The object spread `{ ...job, ...patch }` in `ExportService.update`. -/
def applyPatch (job : ExportJob) (patch : ExportJobPatch) : ExportJob :=
  { job with
    status := patch.status.getD job.status,
    progress := patch.progress.getD job.progress }

/-- Model of `ExportService.update` (exportService.ts lines 300-305): look the job up in
the `jobs` map; if present, merge the patch and store the result.  The map is
modelled extensionally as a function from ids. -/
def updateJobs (jobs : String → Option ExportJob) (jobId : String)
    (patch : ExportJobPatch) : String → Option ExportJob :=
  fun k => if k = jobId then (jobs jobId).map (fun j => applyPatch j patch) else jobs k

/-- Progress value stored for one parsed `time=HH:MM:SS.ss` stderr line in
`ExportService.runFfmpeg` (exportService.ts lines 269-277):
`Math.min(99, Math.floor((current / duration) * 100))`. -/
def ffmpegTickProgress (duration current : ℚ) : ℚ :=
  ((min 99 ⌊current / duration * 100⌋ : ℤ) : ℚ)

/-- The successive `progress` values stored on a job record along the successful
pipeline: `0` at creation (`startBurnIn`, line 65), `1` when `process` starts
(line 81), `2` on the ffmpeg `start` event (line 267), one tick per parsed
stderr time marker (lines 269-277), and `100` on completion (line 113). -/
def storedProgressTrace (duration : ℚ) (times : List ℚ) : List ℚ :=
  0 :: 1 :: 2 :: (times.map (ffmpegTickProgress duration) ++ [100])

/-- The record stored by `ExportService.startBurnIn` (exportService.ts line 65)
under a fresh id, on top of an existing job map. -/
def startBurnInJobs (jobs : String → Option ExportJob) (jobId : String) :
    String → Option ExportJob :=
  fun k =>
    if k = jobId then
      some { jobId := jobId, status := ExportStatus.pending, progress := 0,
             outputPath := none, publicUrl := none, error := none }
    else jobs k

/-! ## The POST /burn-in handler (src/api/routes/export.ts lines 9-31) -/

/-- The request body of `POST /burn-in`; `none` models an absent field (and for
`captions` also a non-array value, which `Array.isArray` rejects the same way). -/
structure BurnInBody where
  videoId : Option String
  captions : Option (List CaptionSegment)
  style : Option CaptionStyle
deriving DecidableEq, Repr

/-- JavaScript truthiness of an optional string (`undefined` and `""` are falsy). -/
def jsTruthyOptStr : Option String → Bool
  | none => false
  | some s => !(s = "")

/-- The handler's validation `!(!videoId || !Array.isArray(captions) || !style)`. -/
def burnInPayloadOk (b : BurnInBody) : Bool :=
  jsTruthyOptStr b.videoId && b.captions.isSome && b.style.isSome

/-- The `POST /burn-in` handler: on a valid payload it calls
`exportService.startBurnIn`, which allocates a pending job under a fresh id
and returns; on an invalid payload it responds 400 and allocates nothing.
Returns (request accepted?, job map afterwards). -/
def handleBurnIn (jobs : String → Option ExportJob) (freshId : String)
    (b : BurnInBody) : Bool × (String → Option ExportJob) :=
  if burnInPayloadOk b then (true, startBurnInJobs jobs freshId) else (false, jobs)

/-! ## Nested style model and normalizeCaptionStyle (src/types/captions.ts) -/

/-- The nested `position` group. -/
structure NPosition where
  type : String
  x : Option ℚ
  y : Option ℚ
  margin : ℚ
deriving DecidableEq, Repr

/-- The nested `typography` group. -/
structure NTypography where
  fontFamily : String
  fontSize : ℚ
  fontWeight : String
  fontColor : String
  textAlign : String
  lineHeight : Option ℚ
  letterSpacing : Option ℚ
deriving DecidableEq, Repr

/-- The `padding` record of the nested `background` group. -/
structure NPadding where
  top : ℚ
  right : ℚ
  bottom : ℚ
  left : ℚ
deriving DecidableEq, Repr

/-- The nested `background` group. -/
structure NBackground where
  enabled : Bool
  color : String
  opacity : ℚ
  borderRadius : ℚ
  padding : NPadding
deriving DecidableEq, Repr

/-- The nested `border` group. -/
structure NBorder where
  enabled : Bool
  color : String
  width : ℚ
  style : String
deriving DecidableEq, Repr

/-- The nested `shadow` group. -/
structure NShadow where
  enabled : Bool
  color : String
  blur : ℚ
  offsetX : ℚ
  offsetY : ℚ
deriving DecidableEq, Repr

/-- The nested `animation` group. -/
structure NAnimation where
  type : String
  duration : ℚ
  delay : ℚ
  easing : String
deriving DecidableEq, Repr

/-- The nested `effects` group. -/
structure NEffects where
  opacity : ℚ
  rotation : ℚ
  scale : ℚ
  blur : ℚ
deriving DecidableEq, Repr

/-- The nested `CaptionStyle` interface as it exists at runtime: any of the
seven top-level groups may be absent (`normalizeCaptionStyle` guards each one
with `if (!normalized.group)`). -/
structure NCaptionStyle where
  position : Option NPosition
  typography : Option NTypography
  background : Option NBackground
  border : Option NBorder
  shadow : Option NShadow
  animation : Option NAnimation
  effects : Option NEffects
  preset : Option String
deriving DecidableEq, Repr

/-- Default filled in for a missing `position` (captions.ts line 331). -/
def defaultNPosition : NPosition := { type := "bottom", x := none, y := none, margin := 20 }

/-- Default filled in for a missing `typography` (captions.ts lines 335-341). -/
def defaultNTypography : NTypography :=
  { fontFamily := "Arial", fontSize := 20, fontWeight := "normal",
    fontColor := "#FFFFFF", textAlign := "center", lineHeight := none, letterSpacing := none }

/-- Default filled in for a missing `background` (captions.ts lines 345-351). -/
def defaultNBackground : NBackground :=
  { enabled := false, color := "#000000", opacity := 4 / 5, borderRadius := 0,
    padding := { top := 0, right := 0, bottom := 0, left := 0 } }

/-- Default filled in for a missing `border` (captions.ts lines 355-360). -/
def defaultNBorder : NBorder := { enabled := false, color := "#000000", width := 0, style := "solid" }

/-- Default filled in for a missing `shadow` (captions.ts lines 364-370). -/
def defaultNShadow : NShadow :=
  { enabled := false, color := "#000000", blur := 0, offsetX := 0, offsetY := 0 }

/-- Default filled in for a missing `animation` (captions.ts lines 374-379). -/
def defaultNAnimation : NAnimation :=
  { type := "none", duration := 0, delay := 0, easing := "linear" }

/-- Default filled in for a missing `effects` (captions.ts lines 383-388). -/
def defaultNEffects : NEffects := { opacity := 1, rotation := 0, scale := 1, blur := 0 }

/-- Model of `normalizeCaptionStyle` (captions.ts lines 326-392): copy the style and fill
every absent top-level group with its default. -/
def normalizeCaptionStyle (style : NCaptionStyle) : NCaptionStyle :=
  { style with
    position := some (style.position.getD defaultNPosition),
    typography := some (style.typography.getD defaultNTypography),
    background := some (style.background.getD defaultNBackground),
    border := some (style.border.getD defaultNBorder),
    shadow := some (style.shadow.getD defaultNShadow),
    animation := some (style.animation.getD defaultNAnimation),
    effects := some (style.effects.getD defaultNEffects) }

/-- The fully populated `classic` preset (captions.ts lines 110-136), as a
nested style value with every group present. -/
def presetClassicN : NCaptionStyle :=
  { position := some { type := "bottom", x := none, y := none, margin := 30 },
    typography := some
      { fontFamily := "Times New Roman", fontSize := 20, fontWeight := "normal",
        fontColor := "#FFFFFF", textAlign := "center",
        lineHeight := none, letterSpacing := none },
    background := some
      { enabled := true, color := "#000000", opacity := 7 / 10, borderRadius := 0,
        padding := { top := 8, right := 12, bottom := 8, left := 12 } },
    border := some { enabled := false, color := "#000000", width := 0, style := "solid" },
    shadow := some { enabled := false, color := "#000000", blur := 0, offsetX := 0, offsetY := 0 },
    animation := some { type := "none", duration := 0, delay := 0, easing := "linear" },
    effects := some { opacity := 1, rotation := 0, scale := 1, blur := 0 },
    preset := none }

/-! ## Number and string rendering primitives -/

/-- Digit characters used by `Number.prototype.toString` in bases 10 and 16
(lowercase, as JavaScript produces). -/
def digitChar16 : ℕ → Char
  | 0 => '0' | 1 => '1' | 2 => '2' | 3 => '3' | 4 => '4'
  | 5 => '5' | 6 => '6' | 7 => '7' | 8 => '8' | 9 => '9'
  | 10 => 'a' | 11 => 'b' | 12 => 'c' | 13 => 'd' | 14 => 'e'
  | _ => 'f'

/-- Digit-emission loop for `n.toString(base)`, fuel-structured so that it
reduces in the kernel; `fuel = n` always suffices for `base ≥ 2`. -/
def natDigitsAux (base : ℕ) : ℕ → ℕ → List Char → List Char
  | 0, _, acc => acc
  | _, 0, acc => acc
  | fuel + 1, n + 1, acc =>
    natDigitsAux base fuel ((n + 1) / base) (digitChar16 ((n + 1) % base) :: acc)

/-- Model of `n.toString(base)` for a natural number. -/
def natToCharsBase (base n : ℕ) : List Char :=
  if n = 0 then ['0'] else natDigitsAux base n n []

/-- Model of `i.toString()` for an integer. -/
def intToChars (i : ℤ) : List Char :=
  if i < 0 then '-' :: natToCharsBase 10 i.natAbs else natToCharsBase 10 i.toNat

/-- Model of `i.toString()` as a `String`. -/
def intToString (i : ℤ) : String := String.mk (intToChars i)

/-- Template-literal rendering of a JavaScript number.  Integral values render
as JavaScript renders them; non-integral rationals are rendered as
`num/den`, a deterministic stand-in (no claim inspects those digits, and the
values interpolated by the source at the claims' inputs are integral). -/
def qToChars (q : ℚ) : List Char :=
  if q.den = 1 then intToChars q.num
  else intToChars q.num ++ '/' :: natToCharsBase 10 q.den

/-- See `qToChars`. -/
def qToString (q : ℚ) : String := String.mk (qToChars q)

/-- Model of `String.prototype.padStart(width, c)`. -/
def padStartChars (width : ℕ) (c : Char) (l : List Char) : List Char :=
  List.replicate (width - l.length) c ++ l

/-- Uppercasing of ASCII letters, as in `String.prototype.toUpperCase` on the
hex strings handled here. -/
def toUpperChar (c : Char) : Char :=
  if 'a' ≤ c && c ≤ 'z' then Char.ofNat (c.toNat - 32) else c

/-- Decimal digit test. -/
def isDigit (c : Char) : Bool := '0' ≤ c && c ≤ '9'

/-- Value of a decimal digit character. -/
def digitVal (c : Char) : ℕ := c.toNat - '0'.toNat

/-- Value of a decimal digit string (`parseInt(s)` on an all-digit string). -/
def parseDigits (l : List Char) : ℕ :=
  l.foldl (fun acc c => 10 * acc + digitVal c) 0

/-- Hexadecimal digit test (case-insensitive, as `parseInt(s, 16)`). -/
def isHexDigit (c : Char) : Bool :=
  isDigit c || ('a' ≤ c && c ≤ 'f') || ('A' ≤ c && c ≤ 'F')

/-- Value of a hexadecimal digit character. -/
def hexVal (c : Char) : ℕ :=
  if isDigit c then digitVal c
  else if 'a' ≤ c && c ≤ 'f' then c.toNat - 'a'.toNat + 10
  else c.toNat - 'A'.toNat + 10

/-- Model of `parseInt(s, 16)`: parse the maximal hex-digit prefix, `none` (NaN) when
there is none. -/
def jsParseIntHex (l : List Char) : Option ℕ :=
  let ds := l.takeWhile isHexDigit
  if ds.isEmpty then none else some (ds.foldl (fun acc c => 16 * acc + hexVal c) 0)

/-- Model of `Number(s)` on the strings that reach it here: the empty string is
`0`, an optionally fractional decimal literal is its value, anything else is
NaN (`none`). -/
def jsNumberChars (l : List Char) : Option ℚ :=
  if l.isEmpty then some 0
  else
    let intPart := l.takeWhile isDigit
    let rest := l.dropWhile isDigit
    match rest with
    | [] => if intPart.isEmpty then none else some (parseDigits intPart)
    | '.' :: fracRest =>
      let frac := fracRest.takeWhile isDigit
      if !(fracRest.dropWhile isDigit).isEmpty then none
      else if intPart.isEmpty && frac.isEmpty then none
      else some ((parseDigits intPart : ℚ) + (parseDigits frac : ℚ) / ((10 : ℚ) ^ frac.length))
    | _ => none

/-- Model of `String.prototype.split(sep)` for a single-character separator. -/
def splitOnChar (sep : Char) : List Char → List (List Char)
  | [] => [[]]
  | c :: rest =>
    if c = sep then [] :: splitOnChar sep rest
    else
      match splitOnChar sep rest with
      | [] => [[c]]
      | w :: ws => (c :: w) :: ws

/-- Model of `Number(part) || dflt` where `part` is a possibly-absent split component
(`Number(undefined)` is NaN; NaN and `0` are falsy). -/
def jsNumberOr (part : Option (List Char)) (dflt : ℚ) : ℚ :=
  match part with
  | none => dflt
  | some cs =>
    match jsNumberChars cs with
    | none => dflt
    | some q => if q = 0 then dflt else q

/-! ## writeAssFile and its helpers (exportService.ts lines 137-441) -/

/-- Model of `PlayResX`/`PlayResY` resolution (exportService.ts lines 143-145):
`resolution.split('x')`, then `Number(wStr) || 1080` and `Number(hStr) || 1920`. -/
def resolvePlayRes (resolution : String) : ℚ × ℚ :=
  let parts := splitOnChar 'x' resolution.data
  (jsNumberOr parts[0]? 1080, jsNumberOr parts[1]? 1920)

/-- The scaled font size of `writeAssFile` (exportService.ts lines 148-150):
`scaleFactor = max(1, min(playResX/1080, playResY/1920))` and
`scaledFontSize = max(48, round(baseFontSize * scaleFactor))`. -/
def computeScaledFontSize (baseFontSize : ℚ) (resolution : String) : ℤ :=
  let p := resolvePlayRes resolution
  let scaleFactor := max 1 (min (p.1 / 1080) (p.2 / 1920))
  max 48 (jsRound (baseFontSize * scaleFactor))

/-- The numeric quantities `writeAssFile` derives from the style and the
resolution (exportService.ts lines 143-182). -/
structure AssParams where
  playResX : ℚ
  playResY : ℚ
  scaledFontSize : ℤ
  align : ℤ
  marginH : ℚ
  marginV : ℚ
  outline : ℤ
  shadow : ℤ
deriving DecidableEq, Repr

/-- Computation of `AssParams` (exportService.ts lines 143-182). -/
def assParams (style : CaptionStyle) (resolution : String) : AssParams :=
  let p := resolvePlayRes resolution
  let playResX := p.1
  let playResY := p.2
  let baseFontSize := jsOrNum style.fontSize 36
  let scaledFontSize := computeScaledFontSize baseFontSize resolution
  let align : ℤ :=
    if style.position = "top" then 8 else if style.position = "center" then 5 else 2
  let marginH := max (jsOrNum style.padding 20) ((jsRound (playResX * (5 / 100)) : ℤ) : ℚ)
  let marginV := max (jsOrNum style.padding 40) ((jsRound (playResY * (6 / 100)) : ℤ) : ℚ)
  let outline : ℤ := max 4 (jsRound ((scaledFontSize : ℚ) * (12 / 100)))
  let shadow : ℤ := max 3 (jsRound ((scaledFontSize : ℚ) * (8 / 100)))
  { playResX := playResX, playResY := playResY, scaledFontSize := scaledFontSize,
    align := align, marginH := marginH, marginV := marginV,
    outline := outline, shadow := shadow }

/-- The opening brace character of an ASS override block (written by code,
not literally, to satisfy the source layout of this file). -/
def lbrace : Char := Char.ofNat 123

/-- The closing brace character of an ASS override block. -/
def rbrace : Char := Char.ofNat 125

/-- Model of `ExportService.escapeAssText` (exportService.ts lines 429-431):
braces to parentheses, newlines to the ASS line-break marker. -/
def escapeAssText (text : String) : String :=
  String.mk (text.data.flatMap fun c =>
    if c = lbrace then ['(']
    else if c = rbrace then [')']
    else if c = '\n' then ['\\', 'N']
    else [c])

/-- JavaScript remainder `a % b` for the nonnegative values used by
`secondsToAssTime`. -/
def qMod (a b : ℚ) : ℚ := a - b * (⌊a / b⌋ : ℚ)

/-- Model of `Number.prototype.toFixed(2)` for the nonnegative caption times used here:
round at the second decimal and print two decimals. -/
def toFixed2 (q : ℚ) : List Char :=
  let cents := (jsRound (q * 100)).toNat
  natToCharsBase 10 (cents / 100) ++ '.' :: padStartChars 2 '0' (natToCharsBase 10 (cents % 100))

/-- Model of `ExportService.secondsToAssTime` (exportService.ts lines 307-313). -/
def secondsToAssTime (sec : ℚ) : String :=
  let s := max 0 sec
  let hh : ℤ := ⌊s / 3600⌋
  let mm : ℤ := ⌊qMod s 3600 / 60⌋
  let ss := padStartChars 5 '0' (toFixed2 (qMod s 60))
  String.mk (intToChars hh ++ ':' :: padStartChars 2 '0' (intToChars mm) ++ ':' :: ss)

/-- Remove the first occurrence of a character
(`String.prototype.replace` with a string pattern). -/
def removeFirst (c : Char) : List Char → List Char
  | [] => []
  | x :: xs => if x = c then xs else x :: removeFirst c xs

/-- One capture attempt of the regex
`rgba\((\d+),\s*(\d+),\s*(\d+),\s*([\d.]+)\)` at the head of `l`, followed by
`parseInt` on the three integer groups and `parseFloat` on the alpha group
(`none` in the fourth component is `parseFloat` returning NaN on a capture
such as `"."`). -/
def parseRgbaAt (l : List Char) : Option (ℕ × ℕ × ℕ × Option ℚ) := do
  let l ← match l with
    | 'r' :: 'g' :: 'b' :: 'a' :: '(' :: rest => some rest
    | _ => none
  let rd := l.takeWhile isDigit
  if rd.isEmpty then none else do
  let l := l.dropWhile isDigit
  let l ← match l with | ',' :: rest => some (rest.dropWhile isWs) | _ => none
  let gd := l.takeWhile isDigit
  if gd.isEmpty then none else do
  let l := l.dropWhile isDigit
  let l ← match l with | ',' :: rest => some (rest.dropWhile isWs) | _ => none
  let bd := l.takeWhile isDigit
  if bd.isEmpty then none else do
  let l := l.dropWhile isDigit
  let l ← match l with | ',' :: rest => some (rest.dropWhile isWs) | _ => none
  let run := l.takeWhile fun c => isDigit c || c = '.'
  if run.isEmpty then none else do
  let l := l.dropWhile fun c => isDigit c || c = '.'
  let _ ← match l with | ')' :: rest => some rest | _ => none
  let alpha : Option ℚ :=
    let ip := run.takeWhile isDigit
    match run.dropWhile isDigit with
    | '.' :: r2 =>
      let fp := r2.takeWhile isDigit
      if ip.isEmpty && fp.isEmpty then none
      else some ((parseDigits ip : ℚ) + (parseDigits fp : ℚ) / ((10 : ℚ) ^ fp.length))
    | _ => if ip.isEmpty then none else some (parseDigits ip)
  some (parseDigits rd, parseDigits gd, parseDigits bd, alpha)

/-- Model of `String.prototype.match` scans for the first position where the rgba regex
matches. -/
def findRgba : List Char → Option (ℕ × ℕ × ℕ × Option ℚ)
  | [] => none
  | c :: rest => (parseRgbaAt (c :: rest)).orElse fun _ => findRgba rest

/-- Model of `n.toString(16).toUpperCase().padStart(2, '0')` (the `toHex` helper of
`hexToAssColor`). -/
def hex2U (n : ℕ) : List Char :=
  padStartChars 2 '0' ((natToCharsBase 16 n).map toUpperChar)

/-- Model of `toHex` applied to a possibly-NaN `parseInt` result: NaN renders as
`"NaN"`, then uppercases to `"NAN"`. -/
def hexByteStr : Option ℕ → List Char
  | some n => hex2U n
  | none => ['N', 'A', 'N']

/-- Model of `ExportService.hexToAssColor` (exportService.ts lines 315-359). -/
def hexToAssColor (hex : String) : String :=
  let cleanHex0 := removeFirst '#' hex.data
  let rgbaResult :=
    if strStartsWith hex "rgba" then
      match findRgba hex.data with
      | some (r, g, b, aOpt) =>
        let alphaHex :=
          match aOpt with
          | some a => padStartChars 2 '0' ((natToCharsBase 16 (jsRound (a * 255)).toNat).map toUpperChar)
          | none => ['N', 'A', 'N']
        some (String.mk ('&' :: 'H' :: alphaHex ++ hex2U b ++ hex2U g ++ hex2U r ++ ['&']))
      | none => none
    else none
  match rgbaResult with
  | some s => s
  | none =>
    let cleanHex1 :=
      if cleanHex0.length = 3 then cleanHex0.flatMap (fun c => [c, c]) else cleanHex0
    let cleanHex := if cleanHex1.length ≠ 6 then "FFFFFF".data else cleanHex1
    let r := jsParseIntHex (cleanHex.take 2)
    let g := jsParseIntHex ((cleanHex.drop 2).take 2)
    let b := jsParseIntHex ((cleanHex.drop 4).take 2)
    String.mk ('&' :: 'H' :: '0' :: '0' :: hexByteStr b ++ hexByteStr g ++ hexByteStr r ++ ['&'])

/-- The forced primary text colour of `writeAssFile` (exportService.ts line 163). -/
def forcedPrimary : String := "&H00FFFFFF&"

/-- The forced background colour of `writeAssFile` (exportService.ts line 164);
computed but, like the hard-coded BackColour field, independent of the style. -/
def forcedBackground : String := "&HFF000000&"

/-- Model of `ExportService.generateAssEffect` (exportService.ts lines 361-427). -/
def generateAssEffect (style : CaptionStyle) (centerX yPosition : ℚ)
    (caption : CaptionSegment) (scaledFontSize outline shadow : ℤ) : String :=
  let duration := (caption.endTime - caption.startTime) * 1000
  let animationDuration := jsOptOrNum style.animationDuration 300
  let animationDelay := jsOptOrNum style.animationDelay 0
  let textColor := "&H00FFFFFF&"
  let baseEffect := "\x7b\\1c" ++ textColor ++ "\\bord" ++ intToString outline ++
    "\\shad" ++ intToString shadow ++ "\\q2\\pos(" ++ qToString centerX ++ "," ++
    qToString yPosition ++ ")"
  let baseEffect :=
    match style.rotation with
    | some r => baseEffect ++ "\\frz" ++ qToString r
    | none => baseEffect
  if style.type = "reel" then
    let reelDuration := min animationDuration (duration / 4)
    baseEffect ++ "\\t(" ++ qToString animationDelay ++ "," ++
      qToString (animationDelay + reelDuration) ++ ",\\fscx105\\fscy105)\\t(" ++
      qToString (animationDelay + reelDuration) ++ "," ++
      qToString (duration - reelDuration) ++ ",\\fscx100\\fscy100)\\t(" ++
      qToString (duration - reelDuration) ++ "," ++ qToString duration ++
      ",\\fscx95\\fscy95)" ++ "\x7d"
  else if style.type = "classic" then
    baseEffect ++ "\x7d"
  else if style.type = "bounce" then
    let bounceDuration := min animationDuration (duration / 4)
    let bounceDelay := animationDelay
    baseEffect ++ "\\t(" ++ qToString bounceDelay ++ "," ++
      qToString (bounceDelay + bounceDuration) ++ ",\\fscx110\\fscy110)\\t(" ++
      qToString (bounceDelay + bounceDuration) ++ "," ++
      qToString (bounceDelay + bounceDuration * 2) ++ ",\\fscx100\\fscy100)\\t(" ++
      qToString (bounceDelay + bounceDuration * 2) ++ "," ++
      qToString (bounceDelay + bounceDuration * 3) ++ ",\\fscx110\\fscy110)\\t(" ++
      qToString (bounceDelay + bounceDuration * 3) ++ "," ++ qToString duration ++
      ",\\fscx100\\fscy100)" ++ "\x7d"
  else if style.type = "slide" then
    let slideDuration := min animationDuration (duration / 3)
    let slideDistance := min 200 (centerX * (3 / 10))
    let slideStartX :=
      if style.position = "top" then centerX - slideDistance else centerX + slideDistance
    let slideDelay := animationDelay
    baseEffect ++ "\\t(" ++ qToString slideDelay ++ "," ++
      qToString (slideDelay + slideDuration) ++ ",\\move(" ++ qToString slideStartX ++
      "," ++ qToString yPosition ++ "," ++ qToString centerX ++ "," ++
      qToString yPosition ++ "))" ++ "\x7d"
  else
    baseEffect ++ "\x7d"

/-- The `Style:` line of the generated ASS header (exportService.ts line 194),
assembled field by field; `mhc` is interpolated twice, exactly as
`${marginH},${marginH},${marginV}` in the template literal. -/
def assStyleLineChars (fam sfc tcc oc sc ac mhc mvc : List Char) : List Char :=
  "Style: Default".data ++ ',' ::
    (fam ++ ',' ::
      (sfc ++ ',' ::
        (tcc ++ ',' ::
          ("&H000000FF".data ++ ',' ::
            ("&H00000000".data ++ ',' ::
              ("&H00000000".data ++ ',' ::
                ("0,0,0,0,100,100,0,0,3".data ++ ',' ::
                  (oc ++ ',' ::
                    (sc ++ ',' ::
                      (ac ++ ',' ::
                        (mhc ++ ',' ::
                          (mhc ++ ',' ::
                            (mvc ++ ',' :: "0".data)))))))))))))

/-- The `Style:` line emitted for a given flat style and resolution.  The
primary colour interpolated is `forcedPrimary` (the source's `textColor`
variable, set to the forced high-contrast white at lines 163/174). -/
def writeAssStyleLine (style : CaptionStyle) (resolution : String) : String :=
  let p := assParams style resolution
  String.mk (assStyleLineChars (jsOrStr style.fontFamily "Arial").data
    (intToChars p.scaledFontSize) forcedPrimary.data (intToChars p.outline)
    (intToChars p.shadow) (intToChars p.align) (qToChars p.marginH) (qToChars p.marginV))

/-- The `[Script Info]`/`[V4+ Styles]`/`[Events]` header
(exportService.ts lines 184-198). -/
def writeAssHeader (style : CaptionStyle) (resolution : String) : String :=
  let p := assParams style resolution
  String.intercalate "\n"
    [ "[Script Info]",
      "ScriptType: v4.00+",
      "Collisions: Normal",
      "WrapStyle: 2",
      "PlayResX: " ++ qToString p.playResX,
      "PlayResY: " ++ qToString p.playResY,
      "",
      "[V4+ Styles]",
      "Format: Name, Fontname, Fontsize, PrimaryColour, SecondaryColour, OutlineColour, BackColour, Bold, Italic, Underline, StrikeOut, ScaleX, ScaleY, Spacing, Angle, BorderStyle, Outline, Shadow, Alignment, MarginL, MarginR, MarginV, Encoding",
      writeAssStyleLine style resolution,
      "",
      "[Events]",
      "Format: Layer, Start, End, Style, Name, MarginL, MarginR, MarginV, Effect, Text" ]

/-- One `Dialogue:` line of the `captions.map` in `writeAssFile`
(exportService.ts lines 200-237). -/
def writeAssEventLine (style : CaptionStyle) (p : AssParams) (c : CaptionSegment) : String :=
  let start := secondsToAssTime c.startTime
  let stop := secondsToAssTime c.endTime
  let text := escapeAssText c.text
  let centerX := p.playResX / 2
  let centerY := p.playResY / 2
  let yPosition : ℚ :=
    if style.position = "top" then p.marginV + (p.scaledFontSize : ℚ) + 20
    else if style.position = "center" then centerY
    else p.playResY - p.marginV - (p.scaledFontSize : ℚ) - 20
  let effect := generateAssEffect style centerX yPosition c p.scaledFontSize p.outline p.shadow
  "Dialogue: 0," ++ start ++ "," ++ stop ++ ",Default,,0,0,0,," ++ effect ++ text

/-- The list of emitted `Dialogue:` lines: one per input caption, in input
order — `writeAssFile` performs no filtering and no sorting. -/
def writeAssEventLines (captions : List CaptionSegment) (style : CaptionStyle)
    (resolution : String) : List String :=
  let p := assParams style resolution
  captions.map fun c => writeAssEventLine style p c

/-- The full text written by `ExportService.writeAssFile`
(exportService.ts lines 137-251): `` `${header}\n${events}\n` ``.  The two
`hexToAssColor` calls of the source are performed (lines 157-160) but their
results are unused — the emitted colours are the forced ones. -/
def writeAssContent (captions : List CaptionSegment) (style : CaptionStyle)
    (resolution : String) : String :=
  let primary := hexToAssColor (jsOrStr style.color "#ffffff")
  let backgroundColor := hexToAssColor (jsOrStr style.backgroundColor "#000000")
  let backColor := forcedBackground
  let textColor := forcedPrimary
  writeAssHeader style resolution ++ "\n" ++
    String.intercalate "\n" (writeAssEventLines captions style resolution) ++ "\n"

/-! ## The filter-graph renderer (legacy ExportService, buildComplexFilter) -/

/-- The nested `CaptionStyle` as the filter builders dereference it: every
top-level group present (the code accesses `style.typography.…` and
`style.background.…` unconditionally). -/
structure NStyleValues where
  position : NPosition
  typography : NTypography
  background : NBackground
  border : NBorder
  shadow : NShadow
  animation : NAnimation
  effects : NEffects
deriving DecidableEq, Repr

/-- Replace every occurrence of a character by a string
(`String.prototype.replace` with a global regex). -/
def replaceAllChar (t : Char) (r : List Char) (l : List Char) : List Char :=
  l.flatMap fun c => if c = t then r else [c]

/-- Model of `ExportService.escapeText` of the legacy variant: the six sequential
global replacements, backslashes first. -/
def escapeText (text : String) : String :=
  String.mk (replaceAllChar ';' ['\\', ';']
    (replaceAllChar ']' ['\\', ']']
      (replaceAllChar '[' ['\\', '[']
        (replaceAllChar ':' ['\\', ':']
          (replaceAllChar '\'' ['\\', '\'']
            (replaceAllChar '\\' ['\\', '\\'] text.data))))))

/-- Maximal runs of characters satisfying `p`; `acc` holds the current run,
reversed. -/
def runsAux (p : Char → Bool) : List Char → List Char → List (List Char)
  | [], acc => if acc.isEmpty then [] else [acc.reverse]
  | c :: rest, acc =>
    if p c then runsAux p rest (c :: acc)
    else if acc.isEmpty then runsAux p rest [] else acc.reverse :: runsAux p rest []

/-- Model of `color.match(/\d+/g)`: all maximal digit runs. -/
def digitRuns (l : List Char) : List (List Char) := runsAux isDigit l []

/-- Lowercasing of ASCII letters (`String.prototype.toLowerCase`). -/
def toLowerChar (c : Char) : Char :=
  if 'A' ≤ c && c ≤ 'Z' then Char.ofNat (c.toNat + 32) else c

/-- Model of `n.toString(16).padStart(2, '0')` — lowercase, as used by `normalizeColor`. -/
def hex2L (n : ℕ) : List Char := padStartChars 2 '0' (natToCharsBase 16 n)

/-- The named-colour table and final fallback of `normalizeColor`. -/
def namedColorOr (color : String) : String :=
  let lc := String.mk (color.data.map toLowerChar)
  if lc = "white" then "0xFFFFFF"
  else if lc = "black" then "0x000000"
  else if lc = "red" then "0xFF0000"
  else if lc = "green" then "0x00FF00"
  else if lc = "blue" then "0x0000FF"
  else if lc = "yellow" then "0xFFFF00"
  else if lc = "cyan" then "0x00FFFF"
  else if lc = "magenta" then "0xFF00FF"
  else if lc = "transparent" then "0x00000000"
  else "0xFFFFFF"

/-- Model of `ExportService.normalizeColor` of the legacy variant. -/
def normalizeColor (color : String) : String :=
  if color = "" then "white"
  else if strStartsWith color "#" then
    String.mk ('0' :: 'x' :: removeFirst '#' color.data)
  else if strStartsWith color "rgb(" || strStartsWith color "rgba(" then
    match digitRuns color.data with
    | r :: g :: b :: _ =>
      String.mk ('0' :: 'x' ::
        (hex2L (parseDigits r) ++ hex2L (parseDigits g) ++ hex2L (parseDigits b)))
    | _ => namedColorOr color
  else namedColorOr color

/-- The body of the `limitedCaptions.forEach` in
`createMultipleSimpleFilters`: one `drawtext` filter per caption. -/
def simpleDrawTextFilter (style : NStyleValues) (caption : CaptionSegment) : String :=
  let text := escapeText caption.text
  "drawtext=text='" ++ text ++ "'" ++
    ":fontsize=" ++ qToString style.typography.fontSize ++
    ":fontcolor=" ++ normalizeColor style.typography.fontColor ++
    ":x=(w-text_w)/2:y=h-text_h-20" ++
    ":enable='between(t," ++ qToString caption.startTime ++ "," ++
    qToString caption.endTime ++ ")'" ++
    (if style.background.enabled then
      ":box=1:boxcolor=" ++ normalizeColor style.background.color ++ "@" ++
        qToString style.background.opacity
    else "")

/-- Model of `ExportService.createMultipleSimpleFilters` of the legacy variant
(no limit: all captions are mapped, in the given order). -/
def createMultipleSimpleFilters (captions : List CaptionSegment)
    (style : NStyleValues) : List String :=
  captions.map (simpleDrawTextFilter style)

/-- The validation predicate of `buildComplexFilter`:
`caption.text && caption.text.trim().length > 0 && caption.startTime >= 0 &&
caption.endTime > caption.startTime` (the leading truthiness test is subsumed
by the trimmed-length test). -/
def isValidCaption (c : CaptionSegment) : Bool :=
  !(jsTrim c.text.data).isEmpty && decide (0 ≤ c.startTime) &&
    decide (c.startTime < c.endTime)

/-- The `[...validCaptions].sort((a, b) => a.startTime - b.startTime)` step:
`Array.prototype.sort` is stable, as is `List.mergeSort`. -/
def sortedValidCaptions (captions : List CaptionSegment) : List CaptionSegment :=
  (captions.filter isValidCaption).mergeSort fun a b => decide (a.startTime ≤ b.startTime)

/-- Model of `ExportService.buildComplexFilter` of the legacy variant
(part_005 lines 303-327). -/
def buildComplexFilter (captions : List CaptionSegment) (style : NStyleValues) :
    List String :=
  if captions.isEmpty then []
  else
    let validCaptions := captions.filter isValidCaption
    if validCaptions.isEmpty then []
    else
      let sortedCaptions :=
        validCaptions.mergeSort fun a b => decide (a.startTime ≤ b.startTime)
      createMultipleSimpleFilters sortedCaptions style

/-- A concrete flat style used to instantiate theorems at sample inputs. -/
def flatStyle0 : CaptionStyle :=
  { type := "classic", position := "bottom", fontSize := 24, fontFamily := "Arial",
    color := "#ffffff", backgroundColor := "#000000", padding := 20, borderRadius := 8,
    animationDuration := none, animationDelay := none, animationEasing := none,
    shadowColor := none, shadowBlur := none, shadowOffsetX := none, shadowOffsetY := none,
    borderColor := none, borderWidth := none, opacity := none, rotation := none }

/-! ## Theorems -/

/-- C8: style normalization is idempotent — `normalize (normalize s) = normalize s`
for every nested caption style — and a style in which all seven top-level groups
are present is returned unchanged. -/
theorem normalizeCaptionStyle_idempotent (s : NCaptionStyle) :
    normalizeCaptionStyle (normalizeCaptionStyle s) = normalizeCaptionStyle s ∧
      (s.position.isSome ∧ s.typography.isSome ∧ s.background.isSome ∧
          s.border.isSome ∧ s.shadow.isSome ∧ s.animation.isSome ∧ s.effects.isSome →
        normalizeCaptionStyle s = s) := by
  constructor
  · simp [normalizeCaptionStyle]
  · rintro ⟨hp, ht, hb, hbo, hs, ha, he⟩
    obtain ⟨v1, e1⟩ := Option.isSome_iff_exists.mp hp
    obtain ⟨v2, e2⟩ := Option.isSome_iff_exists.mp ht
    obtain ⟨v3, e3⟩ := Option.isSome_iff_exists.mp hb
    obtain ⟨v4, e4⟩ := Option.isSome_iff_exists.mp hbo
    obtain ⟨v5, e5⟩ := Option.isSome_iff_exists.mp hs
    obtain ⟨v6, e6⟩ := Option.isSome_iff_exists.mp ha
    obtain ⟨v7, e7⟩ := Option.isSome_iff_exists.mp he
    cases s
    simp_all [normalizeCaptionStyle]

/-- Witness for C8 at the fully populated `classic` preset. -/
theorem normalizeCaptionStyle_idempotent_witness :
    normalizeCaptionStyle presetClassicN = presetClassicN :=
  (normalizeCaptionStyle_idempotent presetClassicN).2 (by with_unfolding_all decide)

/-- C9: compilation is deterministic — the subtitle document is a pure function
of `(segments, style, resolution)`, so identical inputs give byte-identical
output. -/
theorem writeAssContent_deterministic (captions captions2 : List CaptionSegment)
    (style style2 : CaptionStyle) (res res2 : String)
    (hc : captions = captions2) (hs : style = style2) (hr : res = res2) :
    writeAssContent captions style res = writeAssContent captions2 style2 res2 := by
  subst hc
  subst hs
  subst hr
  rfl

/-- Witness for C9 at a concrete compilation. -/
theorem writeAssContent_deterministic_witness :
    writeAssContent [] flatStyle0 "1080x1920" = writeAssContent [] flatStyle0 "1080x1920" :=
  writeAssContent_deterministic [] [] flatStyle0 flatStyle0 "1080x1920" "1080x1920"
    rfl rfl rfl

/-- C6 counterexample: a burn-in request whose `captions` list is empty passes
the boundary check (`Array.isArray([])` is `true`), and `startBurnIn` allocates
a pending job record for it — the claim that such requests are rejected with no
job ever allocated is false on the code. -/
theorem burnIn_emptyCaptions_creates_job :
    burnInPayloadOk ⟨some "vid1", some [], some flatStyle0⟩ = true ∧
      (handleBurnIn (fun _ => none) "job_1" ⟨some "vid1", some [], some flatStyle0⟩).2 "job_1" =
        some ⟨"job_1", ExportStatus.pending, 0, none, none, none⟩ := by
  with_unfolding_all decide

/-- C6 amended: the boundary check rejects exactly a falsy `videoId`, a
non-array `captions` value, or a missing `style`; a rejected request allocates
no job, while any accepted request — including one with an empty captions list,
invalid segments, or an arbitrary style — allocates a pending job record. -/
theorem burnIn_boundary_check (b : BurnInBody) (jobs : String → Option ExportJob)
    (fid : String) :
    (burnInPayloadOk b = true ↔
        jsTruthyOptStr b.videoId = true ∧ b.captions.isSome = true ∧ b.style.isSome = true) ∧
      (burnInPayloadOk b = false → (handleBurnIn jobs fid b).2 = jobs) ∧
      (burnInPayloadOk b = true →
        (handleBurnIn jobs fid b).2 fid =
          some { jobId := fid, status := ExportStatus.pending, progress := 0,
                 outputPath := none, publicUrl := none, error := none }) := by
  refine ⟨?_, ?_, ?_⟩
  · simp [burnInPayloadOk, Bool.and_eq_true, and_assoc]
  · intro h
    simp [handleBurnIn, h]
  · intro h
    simp [handleBurnIn, h, startBurnInJobs]

/-- Witness for C6 amended: a request without `videoId` is rejected and the job
map is left untouched. -/
theorem burnIn_boundary_check_witness :
    (handleBurnIn (fun _ => none) "job_1" ⟨none, some [], some flatStyle0⟩).2 =
      (fun _ => none) :=
  (burnIn_boundary_check ⟨none, some [], some flatStyle0⟩ (fun _ => none) "job_1").2.1
    (by decide)

/-- Splitting at a separator: the first component is the separator-free prefix. -/
theorem splitOnChar_append (sep : Char) (xs ys : List Char) (h : sep ∉ xs) :
    splitOnChar sep (xs ++ sep :: ys) = xs :: splitOnChar sep ys := by
  induction xs with
  | nil => simp [splitOnChar]
  | cons c rest ih =>
    simp only [List.mem_cons, not_or] at h
    simp only [List.cons_append, splitOnChar, if_neg (Ne.symm h.1), List.append_eq]
    rw [ih h.2]

/-- Decimal digits emitted by `digitChar16` below 10. -/
theorem digitChar16_isDigit (k : ℕ) (hk : k < 10) : isDigit (digitChar16 k) = true := by
  interval_cases k <;> decide

/-- Every character produced by the decimal digit loop is a decimal digit. -/
theorem natDigitsAux_digits :
    ∀ (fuel n : ℕ) (acc : List Char), (∀ c ∈ acc, isDigit c = true) →
      ∀ c ∈ natDigitsAux 10 fuel n acc, isDigit c = true := by
  intro fuel
  induction fuel with
  | zero =>
    intro n acc h c hc
    simp only [natDigitsAux] at hc
    exact h c hc
  | succ f ih =>
    intro n acc h c hc
    cases n with
    | zero =>
      simp only [natDigitsAux] at hc
      exact h c hc
    | succ m =>
      simp only [natDigitsAux] at hc
      refine ih _ _ ?_ c hc
      intro d hd
      rcases List.mem_cons.mp hd with hd | hd
      · subst hd
        exact digitChar16_isDigit _ (Nat.mod_lt _ (by omega))
      · exact h d hd

/-- Every character of `n.toString()` is a decimal digit. -/
theorem natToCharsBase10_digits (n : ℕ) : ∀ c ∈ natToCharsBase 10 n, isDigit c = true := by
  intro c hc
  unfold natToCharsBase at hc
  split at hc
  · rcases List.mem_singleton.mp hc with rfl
    decide
  · exact natDigitsAux_digits n n [] (by intro d hd; cases hd) c hc

/-- Integer rendering never contains a comma. -/
theorem comma_not_mem_intToChars (i : ℤ) : ',' ∉ intToChars i := by
  unfold intToChars
  split
  · intro h
    rcases List.mem_cons.mp h with h | h
    · exact absurd h (by decide)
    · exact absurd (natToCharsBase10_digits _ _ h) (by decide)
  · intro h
    exact absurd (natToCharsBase10_digits _ _ h) (by decide)

/-- Number rendering never contains a comma. -/
theorem comma_not_mem_qToChars (q : ℚ) : ',' ∉ qToChars q := by
  unfold qToChars
  split
  · exact comma_not_mem_intToChars _
  · intro h
    rcases List.mem_append.mp h with h | h
    · exact comma_not_mem_intToChars _ h
    · rcases List.mem_cons.mp h with h | h
      · exact absurd h (by decide)
      · exact absurd (natToCharsBase10_digits _ _ h) (by decide)

/-- The comma-separated fields of the emitted `Style:` line: field 3 (the ASS
`PrimaryColour`) is the interpolated text colour and field 6 (`BackColour`) is
the hard-coded `&H00000000`. -/
theorem assStyleLineChars_fields (fam sfc tcc oc sc ac mhc mvc : List Char)
    (hfam : ',' ∉ fam) (hsf : ',' ∉ sfc) (htc : ',' ∉ tcc) :
    (splitOnChar ',' (assStyleLineChars fam sfc tcc oc sc ac mhc mvc))[3]? = some tcc ∧
      (splitOnChar ',' (assStyleLineChars fam sfc tcc oc sc ac mhc mvc))[6]? =
        some "&H00000000".data := by
  have h0 : ',' ∉ "Style: Default".data := by decide
  have h4 : ',' ∉ "&H000000FF".data := by decide
  have h5 : ',' ∉ "&H00000000".data := by decide
  unfold assStyleLineChars
  rw [splitOnChar_append _ _ _ h0, splitOnChar_append _ _ _ hfam,
    splitOnChar_append _ _ _ hsf, splitOnChar_append _ _ _ htc,
    splitOnChar_append _ _ _ h4, splitOnChar_append _ _ _ h5,
    splitOnChar_append _ _ _ h5]
  constructor <;> rfl

/-- C5: the compiled subtitle document is independent of the user-specified
text and background colours — two styles differing only in `color` and
`backgroundColor` compile to byte-identical documents — and the emitted
`Style:` line always carries pure white (`&H00FFFFFF&`) as `PrimaryColour` and
opaque black (`&H00000000`) as `BackColour`. -/
theorem writeAss_forced_colors (captions : List CaptionSegment) (s : CaptionStyle)
    (res : String) (c1 b1 c2 b2 : String)
    (hfam : ',' ∉ (jsOrStr s.fontFamily "Arial").data) :
    writeAssContent captions { s with color := c1, backgroundColor := b1 } res =
        writeAssContent captions { s with color := c2, backgroundColor := b2 } res ∧
      (splitOnChar ',' (writeAssStyleLine s res).data)[3]? = some "&H00FFFFFF&".data ∧
      (splitOnChar ',' (writeAssStyleLine s res).data)[6]? = some "&H00000000".data := by
  refine ⟨rfl, ?_, ?_⟩
  · exact (assStyleLineChars_fields _ _ _ _ _ _ _ _ hfam
      (comma_not_mem_intToChars _) (by decide)).1
  · exact (assStyleLineChars_fields _ _ _ _ _ _ _ _ hfam
      (comma_not_mem_intToChars _) (by decide)).2

/-- Witness for C5: two concrete styles differing only in their colours give
the same document. -/
theorem writeAss_forced_colors_witness :
    writeAssContent [] { flatStyle0 with color := "#ff0000", backgroundColor := "#00ff00" }
        "1080x1920" =
      writeAssContent [] { flatStyle0 with color := "#123456", backgroundColor := "#abcdef" }
        "1080x1920" :=
  (writeAss_forced_colors [] flatStyle0 "1080x1920" "#ff0000" "#00ff00" "#123456" "#abcdef"
    (by decide)).1

/-- Splitting a separator-free string yields one component. -/
theorem splitOnChar_eq_single (sep : Char) (l : List Char) (h : sep ∉ l) :
    splitOnChar sep l = [l] := by
  induction l with
  | nil => rfl
  | cons c rest ih =>
    simp only [List.mem_cons, not_or] at h
    simp only [splitOnChar, if_neg (Ne.symm h.1)]
    rw [ih h.2]

/-- Digit folding from an arbitrary initial accumulator. -/
theorem foldl_digits_init (l : List Char) :
    ∀ a : ℕ, l.foldl (fun acc c => 10 * acc + digitVal c) a =
      a * 10 ^ l.length + l.foldl (fun acc c => 10 * acc + digitVal c) 0 := by
  induction l with
  | nil => intro a; simp
  | cons c rest ih =>
    intro a
    simp only [List.foldl_cons]
    rw [ih (10 * a + digitVal c), ih (10 * 0 + digitVal c)]
    simp only [List.length_cons, pow_succ]
    ring

/-- The decimal digit characters decode to their values. -/
theorem digitVal_digitChar16 (k : ℕ) (hk : k < 10) : digitVal (digitChar16 k) = k := by
  interval_cases k <;> decide

/-- The digit loop renders the base-10 digits of its argument: parsing the
result recovers `n` shifted past `acc`. -/
theorem natDigitsAux_parse (fuel : ℕ) :
    ∀ (n : ℕ) (acc : List Char), n ≤ fuel →
      parseDigits (natDigitsAux 10 fuel n acc) = n * 10 ^ acc.length + parseDigits acc := by
  induction fuel with
  | zero =>
    intro n acc h
    have : n = 0 := by omega
    subst this
    simp [natDigitsAux]
  | succ f ih =>
    intro n acc h
    cases n with
    | zero => simp [natDigitsAux]
    | succ m =>
      simp only [natDigitsAux]
      have hdiv : (m + 1) / 10 < m + 1 := Nat.div_lt_self (Nat.succ_pos m) (by norm_num)
      rw [ih ((m + 1) / 10) _ (by omega)]
      simp only [parseDigits, List.foldl_cons, List.length_cons]
      rw [foldl_digits_init acc (10 * 0 + digitVal (digitChar16 ((m + 1) % 10)))]
      rw [digitVal_digitChar16 _ (Nat.mod_lt _ (by omega))]
      conv_rhs => rw [← Nat.div_add_mod (m + 1) 10]
      simp only [pow_succ]
      ring

/-- The digit loop never returns the empty list once the accumulator is
non-empty. -/
theorem natDigitsAux_ne_nil (fuel : ℕ) :
    ∀ (n : ℕ) (acc : List Char), acc ≠ [] → natDigitsAux 10 fuel n acc ≠ [] := by
  induction fuel with
  | zero =>
    intro n acc h
    simpa [natDigitsAux] using h
  | succ f ih =>
    intro n acc h
    cases n with
    | zero => simpa [natDigitsAux] using h
    | succ m =>
      simp only [natDigitsAux]
      exact ih _ _ (by simp)

/-- Round trip: `Number(n.toString()) = n` for a natural number. -/
theorem jsNumberChars_natToChars (n : ℕ) :
    jsNumberChars (natToCharsBase 10 n) = some (n : ℚ) := by
  have hdigits := natToCharsBase10_digits n
  have hne : natToCharsBase 10 n ≠ [] := by
    unfold natToCharsBase
    split
    · simp
    · next hn =>
      cases n with
      | zero => exact absurd rfl hn
      | succ m =>
        simp only [natDigitsAux]
        exact natDigitsAux_ne_nil m _ _ (by simp)
  have htake : (natToCharsBase 10 n).takeWhile isDigit = natToCharsBase 10 n :=
    List.takeWhile_eq_self_iff.mpr hdigits
  have hdrop : (natToCharsBase 10 n).dropWhile isDigit = [] :=
    List.dropWhile_eq_nil_iff.mpr hdigits
  have hparse : parseDigits (natToCharsBase 10 n) = n := by
    unfold natToCharsBase
    split
    · next hzero => subst hzero; decide
    · have := natDigitsAux_parse n n [] (le_refl n)
      simpa [parseDigits] using this
  unfold jsNumberChars
  rw [if_neg (by simpa [List.isEmpty_iff] using hne)]
  rw [htake, hdrop]
  simp [List.isEmpty_iff, hne, hparse]

/-- The digit characters contain no `'x'`. -/
theorem x_not_mem_natToChars (n : ℕ) : 'x' ∉ natToCharsBase 10 n := by
  intro h
  exact absurd (natToCharsBase10_digits _ _ h) (by decide)

/-- C10: the compiled font size is
`max(48, round(baseFontSize × max(1, min(playResX/1080, playResY/1920))))`,
where a resolution string `"WxH"` with positive `W`, `H` resolves to
`playResX = W`, `playResY = H`, and an unparsable or empty resolution falls
back to the 1080×1920 defaults (scale factor 1). -/
theorem scaledFontSize_formula (base : ℚ) (w h : ℕ) (hw : 0 < w) (hh : 0 < h) :
    computeScaledFontSize base
        (String.mk (natToCharsBase 10 w ++ 'x' :: natToCharsBase 10 h)) =
        max 48 (jsRound (base * max 1 (min ((w : ℚ) / 1080) ((h : ℚ) / 1920)))) ∧
      computeScaledFontSize base "abc" = max 48 (jsRound (base * 1)) ∧
      computeScaledFontSize base "" = max 48 (jsRound (base * 1)) := by
  refine ⟨?_, ?_, ?_⟩
  · have hsplit : splitOnChar 'x' (natToCharsBase 10 w ++ 'x' :: natToCharsBase 10 h) =
        [natToCharsBase 10 w, natToCharsBase 10 h] := by
      rw [splitOnChar_append _ _ _ (x_not_mem_natToChars w),
        splitOnChar_eq_single _ _ (x_not_mem_natToChars h)]
    unfold computeScaledFontSize resolvePlayRes
    show max 48 (jsRound (base * max 1 (min
      (jsNumberOr (splitOnChar 'x' (natToCharsBase 10 w ++ 'x' :: natToCharsBase 10 h))[0]? 1080 / 1080)
      (jsNumberOr (splitOnChar 'x' (natToCharsBase 10 w ++ 'x' :: natToCharsBase 10 h))[1]? 1920 / 1920)))) = _
    rw [hsplit]
    have hwq : ((w : ℚ) = 0) = False := by
      simp [Nat.cast_eq_zero]
      omega
    have hhq : ((h : ℚ) = 0) = False := by
      simp [Nat.cast_eq_zero]
      omega
    simp [jsNumberOr, jsNumberChars_natToChars, hwq, hhq]
  · have h1 : splitOnChar 'x' ("abc" : String).data = [['a', 'b', 'c']] := by decide
    have h2 : jsNumberChars ['a', 'b', 'c'] = none := by with_unfolding_all decide
    unfold computeScaledFontSize resolvePlayRes
    rw [h1]
    simp only [jsNumberOr, h2, List.getElem?_cons_zero, List.getElem?_cons_succ,
      List.getElem?_nil]
    norm_num
  · have h1 : splitOnChar 'x' ("" : String).data = [[]] := by decide
    have h2 : jsNumberChars [] = some 0 := by with_unfolding_all decide
    unfold computeScaledFontSize resolvePlayRes
    rw [h1]
    simp only [jsNumberOr, h2, List.getElem?_cons_zero, List.getElem?_cons_succ,
      List.getElem?_nil]
    norm_num

/-- Witness for C10 at base size 36 and a 2160×3840 target. -/
theorem scaledFontSize_formula_witness :
    computeScaledFontSize 36
        (String.mk (natToCharsBase 10 2160 ++ 'x' :: natToCharsBase 10 3840)) =
      max 48 (jsRound (36 * max 1 (min ((2160 : ℚ) / 1080) ((3840 : ℚ) / 1920)))) :=
  (scaledFontSize_formula 36 2160 3840 (by decide) (by decide)).1

/-- C3 counterexample: on the spec's own example — transcript
`"one two three four five six seven eight"`, duration 10 s,
`maxSegmentDuration = 5`, `wordsPerMinute = 120` — the generator emits two
segments spanning `[0,2)` and `[2,4)`: reading time at 120 wpm gives each
4-word chunk 2 s, so the second segment starts at 2 (not ≈5) and the captions
end at 4 s (not ≈10). The claimed spans `[0,≈5)` and `[≈5,10)` are off by 3
and 6 seconds. -/
theorem segmenter_example_spans :
    (generateCaptionsFromTranscript "one two three four five six seven eight" 10
          ⟨5, 1, 120⟩ 0).map (fun c => (c.startTime, c.endTime)) = [(0, 2), (2, 4)] ∧
      ¬ (generateCaptionsFromTranscript "one two three four five six seven eight" 10
          ⟨5, 1, 120⟩ 0).map (fun c => (c.startTime, c.endTime)) = [(0, 5), (5, 10)] := by
  with_unfolding_all decide

/-- C3 amended: the example yields exactly 2 segments of 4 words each, each
2 s long (hence at most 5 s), spanning `[0,2)` and `[2,4)`. -/
theorem segmenter_example :
    (generateCaptionsFromTranscript "one two three four five six seven eight" 10
          ⟨5, 1, 120⟩ 0).map (fun c => (c.text, c.startTime, c.endTime)) =
      [("one two three four", 0, 2), ("five six seven eight", 2, 4)] := by
  with_unfolding_all decide

/-- Aggregate bounds for the timing loop: starting from `c ≤ duration`, every
emitted caption starts no earlier than `c`, is non-degenerate, and ends by
`duration`. -/
theorem layoutSegments_mem (wpm maxSeg duration : ℚ) (now : ℕ) (hm : 0 < maxSeg) :
    ∀ (segs : List (List Char)) (idx : ℕ) (c : ℚ), c ≤ duration →
      ∀ cap ∈ layoutSegments wpm maxSeg duration now segs idx c,
        c ≤ cap.startTime ∧ cap.startTime < cap.endTime ∧ cap.endTime ≤ duration := by
  intro segs
  induction segs with
  | nil =>
    intro idx c hc cap hcap
    simp [layoutSegments] at hcap
  | cons seg rest ih =>
    intro idx c hc cap hcap
    simp only [layoutSegments] at hcap
    have hdpos : 0 < min (calculateReadingTime seg wpm) maxSeg :=
      lt_min (lt_of_lt_of_le one_pos (le_max_right _ _)) hm
    have hed : min (c + min (calculateReadingTime seg wpm) maxSeg) duration ≤ duration :=
      min_le_right _ _
    by_cases hlt : c < min (c + min (calculateReadingTime seg wpm) maxSeg) duration
    · rw [if_pos hlt] at hcap
      rcases List.mem_cons.mp hcap with rfl | hcap
    -- the caption pushed in this iteration
      · exact ⟨le_refl _, hlt, hed⟩
      · have := ih (idx + 1) _ hed cap hcap
        exact ⟨le_trans (le_of_lt hlt) this.1, this.2⟩
    · rw [if_neg hlt] at hcap
      have := ih (idx + 1) _ hed cap hcap
      have hce : c ≤ min (c + min (calculateReadingTime seg wpm) maxSeg) duration :=
        le_min (by linarith) hc
      exact ⟨le_trans hce this.1, this.2⟩

/-- The first caption emitted by the timing loop starts exactly at the current
time. -/
theorem layoutSegments_head_start (wpm maxSeg duration : ℚ) (now : ℕ) (hm : 0 < maxSeg) :
    ∀ (segs : List (List Char)) (idx : ℕ) (c : ℚ), c ≤ duration →
      ∀ cap, (layoutSegments wpm maxSeg duration now segs idx c).head? = some cap →
        cap.startTime = c := by
  intro segs
  induction segs with
  | nil =>
    intro idx c hc cap hcap
    simp [layoutSegments] at hcap
  | cons seg rest ih =>
    intro idx c hc cap hcap
    simp only [layoutSegments] at hcap
    have hed : min (c + min (calculateReadingTime seg wpm) maxSeg) duration ≤ duration :=
      min_le_right _ _
    have hdpos : 0 < min (calculateReadingTime seg wpm) maxSeg :=
      lt_min (lt_of_lt_of_le one_pos (le_max_right _ _)) hm
    have hce : c ≤ min (c + min (calculateReadingTime seg wpm) maxSeg) duration :=
      le_min (by linarith) hc
    by_cases hlt : c < min (c + min (calculateReadingTime seg wpm) maxSeg) duration
    · rw [if_pos hlt] at hcap
      simp only [List.head?_cons, Option.some.injEq] at hcap
      rw [← hcap]
    · rw [if_neg hlt] at hcap
      have he : min (c + min (calculateReadingTime seg wpm) maxSeg) duration = c :=
        le_antisymm (not_lt.mp hlt) hce
      rw [he] at hcap
      exact ih (idx + 1) c hc cap hcap

/-- The captions emitted by the timing loop are contiguous: each starts where
the previous one ends. -/
theorem layoutSegments_chain (wpm maxSeg duration : ℚ) (now : ℕ) (hm : 0 < maxSeg) :
    ∀ (segs : List (List Char)) (idx : ℕ) (c : ℚ), c ≤ duration →
      List.Chain' (fun a b => b.startTime = a.endTime)
        (layoutSegments wpm maxSeg duration now segs idx c) := by
  intro segs
  induction segs with
  | nil =>
    intro idx c hc
    simp [layoutSegments]
  | cons seg rest ih =>
    intro idx c hc
    simp only [layoutSegments]
    have hed : min (c + min (calculateReadingTime seg wpm) maxSeg) duration ≤ duration :=
      min_le_right _ _
    by_cases hlt : c < min (c + min (calculateReadingTime seg wpm) maxSeg) duration
    · rw [if_pos hlt]
      refine List.chain'_cons'.mpr ⟨?_, ih (idx + 1) _ hed⟩
      intro b hb
      exact layoutSegments_head_start wpm maxSeg duration now hm rest (idx + 1) _ hed b hb
    · rw [if_neg hlt]
      exact ih (idx + 1) _ hed

/-- Contiguity plus non-degeneracy gives non-decreasing start times. -/
theorem chain_contig_mono (l : List CaptionSegment)
    (hmem : ∀ cseg ∈ l, cseg.startTime < cseg.endTime)
    (hch : List.Chain' (fun a b => b.startTime = a.endTime) l) :
    List.Chain' (fun a b => a.startTime ≤ b.startTime) l := by
  induction l with
  | nil => simp
  | cons a l ih =>
    rw [List.chain'_cons'] at hch ⊢
    refine ⟨?_, ih (fun x hx => hmem x (List.mem_cons_of_mem _ hx)) hch.2⟩
    intro b hb
    have hba := hch.1 b hb
    have ha := hmem a (List.mem_cons_self _ _)
    linarith

/-- C7: for positive total duration and positive `maxSegmentDuration` (the
domain on which the JavaScript chunking loop terminates), the segmenter's
output never ends past `totalDuration`, has non-decreasing start times, and is
contiguous — each segment starts exactly where the previous one ends. -/
theorem segmenter_invariants (transcript : String) (duration : ℚ) (opts : GenOptions)
    (now : ℕ) (hd : 0 < duration) (hm : 0 < opts.maxSegmentDuration) :
    (∀ cap ∈ generateCaptionsFromTranscript transcript duration opts now,
        cap.endTime ≤ duration) ∧
      List.Chain' (fun a b => b.startTime = a.endTime)
        (generateCaptionsFromTranscript transcript duration opts now) ∧
      List.Chain' (fun a b => a.startTime ≤ b.startTime)
        (generateCaptionsFromTranscript transcript duration opts now) := by
  have h0 : (0 : ℚ) ≤ duration := le_of_lt hd
  unfold generateCaptionsFromTranscript
  refine ⟨?_, ?_, ?_⟩
  · intro cap hcap
    exact (layoutSegments_mem _ _ _ _ hm _ _ _ h0 cap hcap).2.2
  · exact layoutSegments_chain _ _ _ _ hm _ _ _ h0
  · exact chain_contig_mono _
      (fun cseg hc => (layoutSegments_mem _ _ _ _ hm _ _ _ h0 cseg hc).2.1)
      (layoutSegments_chain _ _ _ _ hm _ _ _ h0)

/-- Witness for C7 at a concrete transcript and options. -/
theorem segmenter_invariants_witness :
    (0 : ℚ) < 10 ∧ (0 : ℚ) < (GenOptions.mk 5 1 120).maxSegmentDuration ∧
      ∀ cap ∈ generateCaptionsFromTranscript "hello world again" 10 ⟨5, 1, 120⟩ 0,
        cap.endTime ≤ 10 :=
  ⟨by decide, by decide,
    (segmenter_invariants "hello world again" 10 ⟨5, 1, 120⟩ 0 (by decide) (by decide)).1⟩

/-- C1 counterexample: a job whose probed duration is 100 s and whose first
parsed ffmpeg time marker is 0.5 s stores the progress sequence
`0, 1, 2, 0, 100` — the tick `min(99, ⌊0.5/100·100⌋) = 0` is applied after the
start event already stored 2, so the stored values regress before any terminal
state and are not monotonically non-decreasing. -/
theorem progress_trace_not_monotone :
    storedProgressTrace 100 [1 / 2] = [0, 1, 2, 0, 100] ∧
      ¬ List.Chain' (fun a b : ℚ => a ≤ b) (storedProgressTrace 100 [1 / 2]) := by
  have h : storedProgressTrace 100 [1 / 2] = [0, 1, 2, 0, 100] := by
    norm_num [storedProgressTrace, ffmpegTickProgress]
  refine ⟨h, ?_⟩
  rw [h]
  intro hch
  simp only [List.chain'_cons, List.chain'_singleton, and_true] at hch
  norm_num at hch

/-- C1 amended: `ExportService.update` merges any patch into the stored record
unconditionally — in particular it overwrites the progress of a job already in
a terminal state — and the tick-derived progress values are non-decreasing
among themselves (and capped at 99 < 100) whenever the engine's time markers
are non-decreasing; the only regression is from the start value 2 down to an
early first tick. -/
theorem progress_updates_unconditional (jobs : String → Option ExportJob) (id : String)
    (j : ExportJob) (p : ℚ) (hj : jobs id = some j) (duration : ℚ) (times : List ℚ)
    (hd : 0 < duration) (hmono : List.Chain' (fun a b : ℚ => a ≤ b) times) :
    updateJobs jobs id { status := none, progress := some p } id =
        some { j with progress := p } ∧
      List.Chain' (fun a b : ℚ => a ≤ b)
        (times.map (ffmpegTickProgress duration) ++ [100]) := by
  constructor
  · simp [updateJobs, hj, applyPatch]
  · rw [List.chain'_append]
    refine ⟨?_, by simp, ?_⟩
    · rw [List.chain'_map]
      refine hmono.imp ?_
      intro a b hab
      unfold ffmpegTickProgress
      have h1 : a / duration * 100 ≤ b / duration * 100 :=
        mul_le_mul_of_nonneg_right ((div_le_div_iff_of_pos_right hd).mpr hab) (by norm_num)
      exact_mod_cast min_le_min (le_refl (99 : ℤ)) (Int.floor_le_floor h1)
    · intro x hx y hy
      simp only [List.head?_cons, Option.mem_def, Option.some.injEq] at hy
      subst hy
      have hxmem : x ∈ times.map (ffmpegTickProgress duration) :=
        List.mem_of_getLast?_eq_some hx
      obtain ⟨t, _, rfl⟩ := List.mem_map.mp hxmem
      unfold ffmpegTickProgress
      calc ((min 99 ⌊t / duration * 100⌋ : ℤ) : ℚ) ≤ ((99 : ℤ) : ℚ) := by
            exact_mod_cast min_le_left _ _
        _ ≤ 100 := by norm_num

/-- Witness for C1 amended: a patch with progress 50 applied to a `failed`
(terminal) job record replaces its stored progress. -/
theorem progress_updates_unconditional_witness :
    updateJobs
        (fun k => if k = "job_1" then
          some ⟨"job_1", ExportStatus.failed, 37, none, none, some "boom"⟩ else none)
        "job_1" { status := none, progress := some 50 } "job_1" =
      some ⟨"job_1", ExportStatus.failed, 50, none, none, some "boom"⟩ :=
  (progress_updates_unconditional _ "job_1"
    ⟨"job_1", ExportStatus.failed, 37, none, none, some "boom"⟩ 50 (by decide) 100 [0, 1]
    (by decide) (List.chain'_cons.mpr ⟨by decide, List.chain'_singleton _⟩)).1

/-- C2 counterexample: the subtitle-document compiler (`writeAssFile`) performs
no filtering — a caption list whose only segment has empty text and
`endTime ≤ startTime` still produces one `Dialogue:` cue. -/
theorem writeAss_no_filtering :
    (writeAssEventLines [⟨"1", "", 5, 3, 1⟩] flatStyle0 "1080x1920").length = 1 := by
  with_unfolding_all decide

/-- C2 amended: the filter-graph renderer (`buildComplexFilter`) maps exactly
the valid captions sorted by `startTime` — the sorted list is ordered and every
element has non-empty trimmed text, `startTime ≥ 0` and `endTime > startTime` —
while the subtitle-document compiler (`writeAssFile`) emits one cue per input
segment in input order, with no sorting and no dropping. -/
theorem compiler_sorting_and_filtering (captions : List CaptionSegment)
    (nstyle : NStyleValues) (fstyle : CaptionStyle) (res : String) :
    buildComplexFilter captions nstyle =
        (sortedValidCaptions captions).map (simpleDrawTextFilter nstyle) ∧
      List.Sorted (fun a b => a.startTime ≤ b.startTime) (sortedValidCaptions captions) ∧
      (∀ c ∈ sortedValidCaptions captions,
        jsTrim c.text.data ≠ [] ∧ 0 ≤ c.startTime ∧ c.startTime < c.endTime) ∧
      writeAssEventLines captions fstyle res =
        captions.map (writeAssEventLine fstyle (assParams fstyle res)) := by
  refine ⟨?_, ?_, ?_, rfl⟩
  · unfold buildComplexFilter sortedValidCaptions createMultipleSimpleFilters
    by_cases h1 : captions.isEmpty
    · rw [if_pos h1]
      rw [List.isEmpty_iff.mp h1]
      simp
    · rw [if_neg h1]
      by_cases h2 : (captions.filter isValidCaption).isEmpty
      · rw [if_pos h2]
        rw [List.isEmpty_iff.mp h2]
        simp
      · rw [if_neg h2]
  · unfold sortedValidCaptions
    refine (List.sorted_mergeSort ?_ ?_ (captions.filter isValidCaption)).imp
      fun h => of_decide_eq_true h
    · intro a b c hab hbc
      simp only [decide_eq_true_eq] at *
      exact le_trans hab hbc
    · intro a b
      simp only [Bool.or_eq_true, decide_eq_true_eq]
      exact le_total _ _
  · intro c hc
    unfold sortedValidCaptions at hc
    rw [List.mem_mergeSort] at hc
    have hv := (List.mem_filter.mp hc).2
    simp only [isValidCaption, Bool.and_eq_true, decide_eq_true_eq,
      Bool.not_eq_true'] at hv
    obtain ⟨⟨he, hstart⟩, hend⟩ := hv
    refine ⟨?_, hstart, hend⟩
    intro hnil
    rw [hnil] at he
    simp at he

/-- C4 counterexample: a fully opaque `rgba` colour converts with alpha byte
`FF` (`round(1×255)`), not the claimed `00` (`255×(1−1)`) — the produced
encoding is `&HFF000000&`, not `&H00000000&`. -/
theorem hexToAssColor_opaque_rgba :
    hexToAssColor "rgba(0, 0, 0, 1)" = "&HFF000000&" ∧
      hexToAssColor "rgba(0, 0, 0, 1)" ≠ "&H00000000&" := by
  with_unfolding_all decide

/-- C4 amended: for every colour matched by the rgba pattern, the alpha byte of
the alpha-blue-green-red encoding is `round(a × 255)` — not inverted — so
`a = 0.5` still yields `0x80` but a fully opaque input yields `FF`
(ASS-transparent); plain hex colours get alpha byte `00`. -/
theorem hexToAssColor_rgba_formula (s : String) (r g b : ℕ) (a : ℚ)
    (h1 : strStartsWith s "rgba" = true) (h2 : findRgba s.data = some (r, g, b, some a)) :
    hexToAssColor s =
        String.mk ('&' :: 'H' :: hex2U (jsRound (a * 255)).toNat ++ hex2U b ++
          hex2U g ++ hex2U r ++ ['&']) ∧
      hexToAssColor "rgba(0, 0, 0, 0.5)" = "&H80000000&" ∧
      hexToAssColor "#FF0000" = "&H000000FF&" := by
  refine ⟨?_, by with_unfolding_all decide, by with_unfolding_all decide⟩
  unfold hexToAssColor
  simp [h1, h2, hex2U]

/-- Witness for C4 amended at `rgba(10, 20, 30, 1)`. -/
theorem hexToAssColor_rgba_formula_witness :
    hexToAssColor "rgba(10, 20, 30, 1)" =
      String.mk ('&' :: 'H' :: hex2U (jsRound ((1 : ℚ) * 255)).toNat ++ hex2U 30 ++
        hex2U 20 ++ hex2U 10 ++ ['&']) :=
  (hexToAssColor_rgba_formula "rgba(10, 20, 30, 1)" 10 20 30 1 (by decide)
    (by with_unfolding_all decide)).1

end Captionist
